import Mathlib

/-!
Verification of the dotlanth repository: a shallow embedding of the
register VM (crate dot_vm), the capability model (crate dot_sec), the
syscall host and run-event encoding (crate dot_ops), and the dotDSL
parser and validator (crate dot_dsl), together with theorems settling
the specification claims.

Conventions of the embedding:
* Rust `usize`/`u16`/`u32` indices and lengths are modelled as `Nat`;
  `i64` is modelled as `Int` (no arithmetic is performed on it).
* Fallible Rust functions returning `Result` are modelled with `Except`.
* Mutation is modelled by explicit state passing: a Rust method on
  `&mut self` becomes a Lean function returning the updated value.
* The VM's `Host` trait object is modelled as a function
  `SyscallId → List Value → Except HostError (List Value)`; a single VM
  step calls the host at most once, so the host's own state change is
  irrelevant to the step's semantics.
* The event sink is modelled by returning the list of events emitted
  during the step (in emission order); `hasSink = false` corresponds to
  stepping without a sink attached.
* Byte-oriented quantities of the parser (`str::len`, `char_indices`)
  are computed with `Char.utf8Size`, matching Rust's UTF-8 byte offsets.
-/

/-- dot_vm/src/value.rs: `enum Value { Unit, Bool, I64, Str, Bytes }`. -/
inductive Value where
  | unit : Value
  | bool (b : Bool) : Value
  | i64 (n : Int) : Value
  | str (s : String) : Value
  | bytes (bs : List Nat) : Value
deriving DecidableEq, Repr

/-- dot_vm/src/registers.rs: `Reg(pub u16)`, used only through `as_usize`. -/
abbrev Reg := Nat

/-- dot_ops/src/lib.rs: `SyscallId(pub u32)`. -/
abbrev SyscallId := Nat

/-- dot_ops/src/lib.rs: `HostError { message: String }`. -/
structure HostError where
  message : String
deriving DecidableEq, Repr

/-- dot_vm/src/error.rs: `enum VmError`. -/
inductive VmError where
  | halted : VmError
  | instructionPointerOutOfBounds (ip : Nat) (programLen : Nat) : VmError
  | registerOutOfBounds (reg : Reg) (registerCount : Nat) : VmError
  | syscallWithoutHost (id : SyscallId) : VmError
  | syscallFailed (id : SyscallId) (error : HostError) : VmError
  | syscallResultArityMismatch (id : SyscallId) (expected : Nat) (got : Nat) : VmError
deriving DecidableEq, Repr

/-- dot_vm/src/registers.rs: `RegisterFile { registers: Vec<Value> }`. -/
structure RegisterFile where
  registers : List Value
deriving DecidableEq, Repr

/-- dot_vm/src/registers.rs: `RegisterFile::get`. -/
def RegisterFile.get (rf : RegisterFile) (reg : Reg) : Except VmError Value :=
  match rf.registers.get? reg with
  | some v => .ok v
  | none => .error (.registerOutOfBounds reg rf.registers.length)

/-- dot_vm/src/registers.rs: `RegisterFile::set` (no mutation on failure). -/
def RegisterFile.set (rf : RegisterFile) (reg : Reg) (value : Value) :
    Except VmError RegisterFile :=
  if reg < rf.registers.length then .ok ⟨rf.registers.set reg value⟩
  else .error (.registerOutOfBounds reg rf.registers.length)

/-- dot_vm/src/instruction.rs: `enum Instruction`. -/
inductive Instruction where
  | halt : Instruction
  | loadConst (dst : Reg) (value : Value) : Instruction
  | mov (dst : Reg) (src : Reg) : Instruction
  | syscall (id : SyscallId) (args : List Reg) (results : List Reg) : Instruction
deriving DecidableEq, Repr

/-- dot_vm/src/vm.rs: `enum StepOutcome`. -/
inductive StepOutcome where
  | continued : StepOutcome
  | halted : StepOutcome
deriving DecidableEq, Repr

instance {ε α : Type _} [DecidableEq ε] [DecidableEq α] : DecidableEq (Except ε α) := fun x y =>
  match x, y with
  | .ok a, .ok b =>
    if h : a = b then .isTrue (by subst h; rfl) else .isFalse (by intro hc; cases hc; exact h rfl)
  | .error a, .error b =>
    if h : a = b then .isTrue (by subst h; rfl) else .isFalse (by intro hc; cases hc; exact h rfl)
  | .ok _, .error _ => .isFalse (by intro hc; cases hc)
  | .error _, .ok _ => .isFalse (by intro hc; cases hc)

/-- dot_vm/src/event.rs: `SyscallEvent { id, args, result }`. -/
structure SyscallEvent where
  id : SyscallId
  args : List Value
  result : Except HostError (List Value)
deriving DecidableEq, Repr

/-- dot_vm/src/event.rs: `enum VmEvent { Syscall(SyscallEvent) }`. -/
inductive VmEvent where
  | syscall (event : SyscallEvent) : VmEvent
deriving DecidableEq, Repr

/-- dot_vm/src/vm.rs: `Vm { program, registers, ip, halted }`. -/
structure Vm where
  program : List Instruction
  registers : RegisterFile
  ip : Nat
  halted : Bool
deriving DecidableEq, Repr

/-- The host trait object (dot_ops `Host<Value>`), per VM step. -/
abbrev HostFn := SyscallId → List Value → Except HostError (List Value)

/-- Outcome of one `Vm::step_inner` call: the returned `Result`, the VM
state after the call, and the events emitted to the sink in order. -/
structure StepResult where
  result : Except VmError StepOutcome
  vm : Vm
  events : List VmEvent
deriving DecidableEq, Repr

/-- Models `if let Some(events) = events.as_mut() { events.emit(...) }`. -/
def sinkEmit (hasSink : Bool) (event : SyscallEvent) : List VmEvent :=
  if hasSink then [VmEvent.syscall event] else []

/-- dot_vm/src/vm.rs: the argument-gathering loop of the `Syscall` arm
(`for reg in args { values.push(self.read(reg)?.clone()); }`). -/
def readArgs (rf : RegisterFile) : List Reg → Except VmError (List Value)
  | [] => .ok []
  | reg :: rest =>
    match rf.get reg with
    | .error e => .error e
    | .ok v =>
      match readArgs rf rest with
      | .error e => .error e
      | .ok vs => .ok (v :: vs)

/-- dot_vm/src/vm.rs: the result write-back loop of the `Syscall` arm
(`for (dst, value) in results.into_iter().zip(returned) { self.write(dst, value)?; }`).
On failure the registers written before the failing one stay written. -/
def writeLoop (rf : RegisterFile) : List (Reg × Value) → Except VmError Unit × RegisterFile
  | [] => (.ok (), rf)
  | (reg, value) :: rest =>
    match rf.set reg value with
    | .error e => (.error e, rf)
    | .ok rf2 => writeLoop rf2 rest

/-- dot_vm/src/vm.rs: `Vm::step_inner`. -/
def stepInner (vm : Vm) (host : Option HostFn) (hasSink : Bool) : StepResult :=
  if vm.halted then ⟨.error .halted, vm, []⟩
  else
    match vm.program.get? vm.ip with
    | none => ⟨.error (.instructionPointerOutOfBounds vm.ip vm.program.length), vm, []⟩
    | some Instruction.halt =>
      ⟨.ok .halted, { vm with ip := vm.ip + 1, halted := true }, []⟩
    | some (Instruction.loadConst dst value) =>
      match vm.registers.set dst value with
      | .error e => ⟨.error e, vm, []⟩
      | .ok rf => ⟨.ok .continued, { vm with registers := rf, ip := vm.ip + 1 }, []⟩
    | some (Instruction.mov dst src) =>
      match vm.registers.get src with
      | .error e => ⟨.error e, vm, []⟩
      | .ok value =>
        match vm.registers.set dst value with
        | .error e => ⟨.error e, vm, []⟩
        | .ok rf => ⟨.ok .continued, { vm with registers := rf, ip := vm.ip + 1 }, []⟩
    | some (Instruction.syscall id args results) =>
      match host with
      | none => ⟨.error (.syscallWithoutHost id), vm, []⟩
      | some h =>
        match readArgs vm.registers args with
        | .error e => ⟨.error e, vm, []⟩
        | .ok values =>
          match h id values with
          | .error error =>
            ⟨.error (.syscallFailed id error), vm,
              sinkEmit hasSink ⟨id, values, .error error⟩⟩
          | .ok returned =>
            let evs := sinkEmit hasSink ⟨id, values, .ok returned⟩
            if returned.length ≠ results.length then
              ⟨.error (.syscallResultArityMismatch id results.length returned.length), vm, evs⟩
            else
              match writeLoop vm.registers (results.zip returned) with
              | (.error e, rf) => ⟨.error e, { vm with registers := rf }, evs⟩
              | (.ok _, rf) => ⟨.ok .continued, { vm with registers := rf, ip := vm.ip + 1 }, evs⟩

/-- Decides whether a step on `vm` with `host` would fail inside the
syscall result write-back loop (the only failing path of `step_inner`
that leaves registers modified): the current instruction is a `Syscall`,
a host is attached, the argument reads and the host call succeed, the
arity matches, and some result register write is out of bounds. -/
def writeBackFault (vm : Vm) (host : Option HostFn) : Bool :=
  !vm.halted &&
    match vm.program.get? vm.ip with
    | some (Instruction.syscall id args results) =>
      (match host with
       | none => false
       | some h =>
         match readArgs vm.registers args with
         | .error _ => false
         | .ok values =>
           match h id values with
           | .error _ => false
           | .ok returned =>
             decide (returned.length = results.length) &&
               match writeLoop vm.registers (results.zip returned) with
               | (.error _, _) => true
               | (.ok _, _) => false)
    | _ => false

/-- dot_sec/src/lib.rs: `enum Capability { Log, NetHttpListen }`. -/
inductive Capability where
  | log : Capability
  | netHttpListen : Capability
deriving DecidableEq, Repr

/-- dot_sec/src/lib.rs: `Capability::as_str`. -/
def Capability.as_str : Capability → String
  | .log => "log"
  | .netHttpListen => "net.http.listen"

/-- dot_sec/src/lib.rs: `Capability::from_str` (the `FromStr` impl);
`none` stands for `Err(UnknownCapabilityError)`. -/
def Capability.from_str (value : String) : Option Capability :=
  if value = "log" then some .log
  else if value = "net.http.listen" then some .netHttpListen
  else none

/-- dot_sec/src/lib.rs: `enum Syscall { LogEmit, NetHttpListen }` — the
closed syscall enumeration. -/
inductive Syscall where
  | logEmit : Syscall
  | netHttpListen : Syscall
deriving DecidableEq, Repr

/-- dot_sec/src/lib.rs: `Syscall::name`. -/
def Syscall.name : Syscall → String
  | .logEmit => "log.emit"
  | .netHttpListen => "net.http.listen"

/-- dot_sec/src/lib.rs: `Syscall::required_capability`. -/
def Syscall.required_capability : Syscall → Capability
  | .logEmit => .log
  | .netHttpListen => .netHttpListen

/-- dot_sec/src/lib.rs: `Syscall::allow_statement`. -/
def Syscall.allow_statement : Syscall → String
  | .logEmit => "allow log"
  | .netHttpListen => "allow net.http.listen"

/-- dot_sec/src/lib.rs: `CapabilitySet { granted: BTreeSet<Capability> }`,
modelled by the list of granted capabilities (only membership is used). -/
structure CapabilitySet where
  granted : List Capability
deriving DecidableEq, Repr

/-- dot_sec/src/lib.rs: `CapabilitySet::empty` (deny-by-default). -/
def CapabilitySet.empty : CapabilitySet := ⟨[]⟩

/-- dot_sec/src/lib.rs: `CapabilitySet::contains`. -/
def CapabilitySet.contains (s : CapabilitySet) (c : Capability) : Bool :=
  s.granted.contains c

/-- dot_sec/src/lib.rs: `SyscallDeniedError { syscall }`. -/
structure SyscallDeniedError where
  syscall : Syscall
deriving DecidableEq, Repr

/-- dot_sec/src/lib.rs: `CapabilitySet::enforce`. -/
def CapabilitySet.enforce (s : CapabilitySet) (sc : Syscall) :
    Except SyscallDeniedError Unit :=
  if s.contains sc.required_capability then .ok () else .error ⟨sc⟩

/-- dot_sec/src/lib.rs: `SyscallDeniedError::fix_hint`. -/
def SyscallDeniedError.fix_hint (_ : SyscallDeniedError) : String :=
  "Declare it in your `.dot` file with an `allow ...` statement."

/-- dot_sec/src/lib.rs: the `Display` impl for `SyscallDeniedError`:
`capability denied: syscall `{name}` requires capability `{cap}`. Hint: add `{allow}`. {hint}`. -/
def SyscallDeniedError.toDisplay (e : SyscallDeniedError) : String :=
  "capability denied: syscall `" ++ e.syscall.name ++ "` requires capability `" ++
    e.syscall.required_capability.as_str ++ "`. Hint: add `" ++
    e.syscall.allow_statement ++ "`. " ++ e.fix_hint

/-- dot_ops/src/lib.rs: `enum RecordMode { Record, Passthrough }`. -/
inductive RecordMode where
  | record : RecordMode
  | passthrough : RecordMode
deriving DecidableEq, Repr

/-- dot_ops/src/lib.rs: `OpValue::as_str` instantiated at the platform's
`Value` type (the VM's host interface is `Host<Value>`): only `Str`
yields a string. -/
def Value.as_str : Value → Option String
  | .str s => some s
  | _ => none

/-- dot_ops/src/lib.rs: `OpValue::as_i64` instantiated at `Value`. -/
def Value.as_i64 : Value → Option Int
  | .i64 n => some n
  | _ => none

/-- Lowercase hex digit (Rust `{:x}` formatting of a digit value). -/
def hexDigit (n : Nat) : Char :=
  if n < 10 then Char.ofNat (48 + n) else Char.ofNat (87 + n)

/-- Rust `format!("\\u{:04x}", n)`'s digit part for `n < 0x10000`:
four lowercase hex digits, zero-padded. -/
def hex4 (n : Nat) : List Char :=
  [hexDigit (n / 4096 % 16), hexDigit (n / 256 % 16), hexDigit (n / 16 % 16), hexDigit (n % 16)]

/-- dot_ops/src/lib.rs: the per-character escapes of `json_string`
(the match arms inside the loop, in source order). -/
def json_escape_char (c : Char) : List Char :=
  if c = '"' then ['\\', '"']
  else if c = '\\' then ['\\', '\\']
  else if c = '\n' then ['\\', 'n']
  else if c = '\r' then ['\\', 'r']
  else if c = '\t' then ['\\', 't']
  else if c < ' ' then '\\' :: 'u' :: hex4 c.toNat
  else [c]

/-- dot_ops/src/lib.rs: `json_string` (quote, escape each char, quote). -/
def json_string (value : String) : String :=
  "\"" ++ String.mk (value.toList.foldr (fun c acc => json_escape_char c ++ acc) []) ++ "\""

/-- dot_ops/src/lib.rs: `enum RunEvent` (addr rendered as its string form). -/
inductive RunEvent where
  | log (message : String) : RunEvent
  | httpServerStart (addr : String) : RunEvent
  | httpRequest (method : String) (path : String) : RunEvent
  | httpResponse (status : Nat) : RunEvent
deriving DecidableEq, Repr

/-- dot_ops/src/lib.rs: `RunEvent::to_json_line`. -/
def RunEvent.to_json_line : RunEvent → String
  | .log message =>
    "\x7b\"type\":\"log\",\"message\":" ++ json_string message ++ "\x7d"
  | .httpServerStart addr =>
    "\x7b\"type\":\"http.server_start\",\"addr\":" ++ json_string addr ++ "\x7d"
  | .httpRequest method path =>
    "\x7b\"type\":\"http.request\",\"method\":" ++ json_string method ++
      ",\"path\":" ++ json_string path ++ "\x7d"
  | .httpResponse status =>
    "\x7b\"type\":\"http.response\",\"status\":" ++ toString status ++ "\x7d"

/-- dot_ops/src/lib.rs: the `OpsHost` state relevant to `log.emit`.
The DotDB run log is modelled as the list of appended lines (appending
is assumed to succeed, as is the stdout write); the HTTP listener and
run id are omitted (not touched by `log.emit`). -/
structure OpsHost where
  capabilities : CapabilitySet
  record_mode : RecordMode
  stdout : String
  run_log : List String
deriving DecidableEq, Repr

/-- dot_ops/src/lib.rs: `OpsHost::record_event` (no-op unless the record
mode is `Record`). -/
def OpsHost.record_event (h : OpsHost) (event : RunEvent) : OpsHost :=
  if h.record_mode = RecordMode.record then
    { h with run_log := h.run_log ++ [event.to_json_line] }
  else h

/-- dot_ops/src/lib.rs: `OpsHost::syscall_log_emit` (dispatched by
`Host::syscall` for `SYSCALL_LOG_EMIT`, id 1). Returns the host's
`Result` and the updated host state. -/
def OpsHost.syscall_log_emit (h : OpsHost) (args : List Value) :
    Except HostError (List Value) × OpsHost :=
  match h.capabilities.enforce Syscall.logEmit with
  | .error e => (.error ⟨e.toDisplay⟩, h)
  | .ok _ =>
    match args.head?.bind Value.as_str with
    | none => (.error ⟨"log.emit expects 1 string argument"⟩, h)
    | some message =>
      let h2 := { h with stdout := h.stdout ++ message ++ "\n" }
      let h3 := h2.record_event (RunEvent.log message)
      (.ok [], h3)

/-- dot_dsl/src/diagnostics.rs: `Span { line, column, length }`
(1-based; column and length in UTF-8 bytes). -/
structure Span where
  line : Nat
  column : Nat
  length : Nat
deriving DecidableEq, Repr

/-- dot_dsl/src/diagnostics.rs: `Diagnostic { semantic_path, span, message }`. -/
structure Diagnostic where
  semantic_path : String
  span : Span
  message : String
deriving DecidableEq, Repr

/-- dot_dsl/src/diagnostics.rs: `enum LoadError` (`Io`'s `std::io::Error`
payload is modelled by its message string). -/
inductive LoadError where
  | ioErr (path : String) (message : String) : LoadError
  | diagnostics (path : String) (diags : List Diagnostic) : LoadError
deriving DecidableEq, Repr

/-- dot_dsl/src/model.rs: `Spanned<T>`. -/
structure Spanned (α : Type) where
  value : α
  span : Span
deriving DecidableEq, Repr

/-- dot_dsl/src/model.rs: `Response`. -/
structure Response where
  status : Spanned Nat
  body : Spanned String
  span : Span
deriving DecidableEq, Repr

/-- dot_dsl/src/model.rs: `Route`. -/
structure Route where
  verb : Spanned String
  path : Spanned String
  response : Option Response
  span : Span
deriving DecidableEq, Repr

/-- dot_dsl/src/model.rs: `Api`. -/
structure Api where
  name : Spanned String
  routes : List Route
  span : Span
deriving DecidableEq, Repr

/-- dot_dsl/src/model.rs: `Server`. -/
structure Server where
  port : Spanned Nat
  span : Span
deriving DecidableEq, Repr

/-- dot_dsl/src/model.rs: `Metadata`. -/
structure Metadata where
  app : Option (Spanned String)
  project : Option (Spanned String)
deriving DecidableEq, Repr

/-- dot_dsl/src/model.rs: `Document`. -/
structure Document where
  version : Option (Spanned String)
  metadata : Metadata
  capabilities : List (Spanned String)
  server : Option Server
  apis : List Api
deriving DecidableEq, Repr

/-- Rust `Document::default()`. -/
def defaultDocument : Document := ⟨none, ⟨none, none⟩, [], none, []⟩

/-- UTF-8 byte length of a character sequence (Rust `str::len`). -/
def byteLen : List Char → Nat
  | [] => 0
  | c :: rest => c.utf8Size + byteLen rest

/-- Rust `str::trim_start` together with the byte length of the removed
prefix (`input.len() - trimmed.len()`). Rust trims Unicode whitespace;
`Char.isWhitespace` covers the ASCII subset, which is all the dotDSL
sources exercise. -/
def trimStartBytes : List Char → List Char × Nat
  | [] => ([], 0)
  | c :: rest =>
    if c.isWhitespace then
      let (t, n) := trimStartBytes rest
      (t, c.utf8Size + n)
    else (c :: rest, 0)

/-- Rust `str::trim_end`. -/
def trimEndChars (cs : List Char) : List Char :=
  (cs.reverse.dropWhile Char.isWhitespace).reverse

/-- Rust `str::trim` (both ends). -/
def trimChars (cs : List Char) : List Char :=
  trimEndChars (cs.dropWhile Char.isWhitespace)

/-- The characters of the byte slice `cs[..n]` (Rust `&s[..n]`; `n` is
always a character boundary at the call sites). -/
def takeBytes : List Char → Nat → List Char
  | _, 0 => []
  | [], _ => []
  | c :: rest, n => if c.utf8Size ≤ n then c :: takeBytes rest (n - c.utf8Size) else []

/-- The characters of the byte slice `cs[n..]` (Rust `&s[n..]`). -/
def dropBytes : List Char → Nat → List Char
  | cs, 0 => cs
  | [], _ => []
  | c :: rest, n => if c.utf8Size ≤ n then dropBytes rest (n - c.utf8Size) else c :: rest

/-- dot_vm has no use for this; dot_dsl/src/parser.rs `Vec::modify` sites
(`document.apis[api_index].routes.push(...)` etc.) are modelled with an
in-place list update (indices are in bounds by the parser's invariant). -/
def listModify {α : Type} : List α → Nat → (α → α) → List α
  | [], _, _ => []
  | x :: xs, 0, f => f x :: xs
  | x :: xs, n + 1, f => x :: listModify xs n f

/-- Rust `str::lines()`: split at `\n`, dropping one `\r` directly before
each `\n`; a final fragment without a line ending is kept as-is, and a
trailing line ending produces no extra empty line. -/
def splitLinesAux : List Char → List Char → List (List Char)
  | [], acc => if acc.isEmpty then [] else [acc.reverse]
  | '\n' :: rest, acc =>
    (match acc with
     | '\r' :: acc2 => acc2.reverse
     | _ => acc.reverse) :: splitLinesAux rest []
  | c :: rest, acc => splitLinesAux rest (c :: acc)

/-- Rust `source.lines()` over a whole source text. -/
def rustLines (source : String) : List (List Char) :=
  splitLinesAux source.toList []

/-- dot_dsl/src/parser.rs: `statement_line`: trimmed statement text and
its 1-based starting column in bytes; `None` for blank lines. -/
def statementLine (raw : List Char) : Option (List Char × Nat) :=
  let (trimmedStart, leadingWs) := trimStartBytes raw
  if trimmedStart.isEmpty then none
  else some (trimEndChars trimmedStart, leadingWs + 1)

/-- dot_dsl/src/parser.rs: `first_token`. -/
def firstToken (line : List Char) : List Char :=
  let t := (line.dropWhile Char.isWhitespace).takeWhile (fun c => !c.isWhitespace)
  if t.isEmpty then line else t

/-- dot_dsl/src/parser.rs: `single_diag` (path `<inline>`, replaced by
`with_path` at the call sites). -/
def singleDiag (semanticPath : String) (span : Span) (message : String) : LoadError :=
  LoadError.diagnostics "<inline>" [⟨semanticPath, span, message⟩]

/-- dot_dsl/src/parser.rs: `with_path`. -/
def withPath {α : Type} : Except LoadError α → String → Except LoadError α
  | .ok v, _ => .ok v
  | .error (.ioErr p m), _ => .error (.ioErr p m)
  | .error (.diagnostics _ ds), path => .error (.diagnostics path ds)

/-- dot_dsl/src/parser.rs: `parse_single_token`. -/
def parseSingleToken (input : List Char) (lineNo baseColumn : Nat)
    (semanticPath : String) (missingMessage : String) :
    Except LoadError (List Char × Span) :=
  let (trimmed, leadingWs) := trimStartBytes input
  if trimmed.isEmpty then
    .error (singleDiag semanticPath ⟨lineNo, baseColumn + leadingWs, 1⟩ missingMessage)
  else
    let token := trimmed.takeWhile (fun c => !c.isWhitespace)
    let tokenLen := byteLen token
    let after := trimmed.drop token.length
    let trailing := trimChars after
    if !trailing.isEmpty then
      let nonWhitespaceStart := byteLen (after.takeWhile Char.isWhitespace)
      .error (singleDiag semanticPath
        ⟨lineNo, baseColumn + leadingWs + tokenLen + nonWhitespaceStart, byteLen trailing⟩
        "unexpected trailing content")
    else
      .ok (token, ⟨lineNo, baseColumn + leadingWs, tokenLen⟩)

/-- dot_dsl/src/parser.rs: `parse_single_token_prefix` (tolerates
trailing content). -/
def parseSingleTokenPrefix (input : List Char) (lineNo baseColumn : Nat)
    (semanticPath : String) (missingMessage : String) :
    Except LoadError (List Char × Span) :=
  let (trimmed, leadingWs) := trimStartBytes input
  if trimmed.isEmpty then
    .error (singleDiag semanticPath ⟨lineNo, baseColumn + leadingWs, 1⟩ missingMessage)
  else
    let token := trimmed.takeWhile (fun c => !c.isWhitespace)
    .ok (token, ⟨lineNo, baseColumn + leadingWs, byteLen token⟩)

/-- dot_dsl/src/parser.rs: the closing-quote scan of `parse_quoted`
(`for (idx, ch) in trimmed.char_indices().skip(1)` with the `escaped`
flag); `idx` is the running UTF-8 byte offset. -/
def scanCloseAux : List Char → Nat → Bool → Option Nat
  | [], _, _ => none
  | c :: rest, idx, escaped =>
    if escaped then scanCloseAux rest (idx + c.utf8Size) false
    else if c = '\\' then scanCloseAux rest (idx + c.utf8Size) true
    else if c = '"' then some idx
    else scanCloseAux rest (idx + c.utf8Size) false

/-- dot_dsl/src/parser.rs: `unescape`. -/
def unescape : List Char → List Char
  | [] => []
  | c :: rest =>
    if c = '\\' then
      match rest with
      | [] => ['\\']
      | next :: rest2 =>
        if next = '"' then '"' :: unescape rest2
        else if next = '\\' then '\\' :: unescape rest2
        else if next = 'n' then '\n' :: unescape rest2
        else if next = 't' then '\t' :: unescape rest2
        else '\\' :: next :: unescape rest2
    else c :: unescape rest

/-- dot_dsl/src/parser.rs: `parse_quoted`. -/
def parseQuoted (input : List Char) (lineNo baseColumn : Nat)
    (semanticPath : String) (missingMessage : String) :
    Except LoadError (List Char × Span) :=
  let (trimmed, leadingWs) := trimStartBytes input
  match trimmed with
  | '"' :: tail =>
    match scanCloseAux tail 1 false with
    | none =>
      .error (singleDiag semanticPath
        ⟨lineNo, baseColumn + leadingWs, byteLen trimmed⟩ "unterminated quoted string")
    | some closeIndex =>
      let rawLiteral := takeBytes tail (closeIndex - 1)
      let afterClose := dropBytes trimmed (closeIndex + 1)
      let remaining := trimChars afterClose
      if !remaining.isEmpty then
        let trailingStart := byteLen (afterClose.takeWhile Char.isWhitespace)
        .error (singleDiag semanticPath
          ⟨lineNo, baseColumn + leadingWs + closeIndex + 1 + trailingStart, byteLen remaining⟩
          "unexpected trailing content")
      else
        .ok (unescape rawLiteral, ⟨lineNo, baseColumn + leadingWs, closeIndex + 1⟩)
  | _ =>
    .error (singleDiag semanticPath ⟨lineNo, baseColumn + leadingWs, 1⟩ missingMessage)

/-- Rust `str::parse::<u16>`: optional leading `+`, decimal digits only,
value at most 65535. -/
def rustParseU16 (cs : List Char) : Option Nat :=
  let ds := match cs with
    | '+' :: rest => rest
    | _ => cs
  if ds.isEmpty then none
  else if ds.all (fun c => c.isDigit) then
    let v := ds.foldl (fun acc c => acc * 10 + (c.toNat - 48)) 0
    if v ≤ 65535 then some v else none
  else none

/-- dot_dsl/src/parser.rs: `parse_u16`. -/
def parseU16 (raw : List Char) (span : Span) (semanticPath : String)
    (invalidMessage : String) : Except LoadError Nat :=
  match rustParseU16 raw with
  | some v => .ok v
  | none => .error (singleDiag semanticPath span invalidMessage)

/-- dot_dsl/src/parser.rs: `enum Context` (the parser's frame stack; the
stack is modelled head-first: the list head is the Rust `Vec`'s last
element, i.e. the innermost open frame). -/
inductive Context where
  | api (apiIndex : Nat) : Context
  | route (apiIndex : Nat) (routeIndex : Nat) : Context
deriving DecidableEq, Repr

/-- The semantic path of an open frame as formatted by `parse` for the
unclosed-block diagnostic. -/
def contextPath : Context → String
  | .api apiIndex => "apis[" ++ toString apiIndex ++ "]"
  | .route apiIndex routeIndex =>
    "apis[" ++ toString apiIndex ++ "].routes[" ++ toString routeIndex ++ "]"

/-- Placeholder values for `getD` at call sites where Rust indexes a
`Vec` directly (always in bounds by the parser's push discipline). -/
def dummyRoute : Route := ⟨⟨"", ⟨0, 0, 0⟩⟩, ⟨"", ⟨0, 0, 0⟩⟩, none, ⟨0, 0, 0⟩⟩

/-- Placeholder `Api` for `getD` (see `dummyRoute`). -/
def dummyApi : Api := ⟨⟨"", ⟨0, 0, 0⟩⟩, [], ⟨0, 0, 0⟩⟩

/-- dot_dsl/src/parser.rs: `parse_top_level`. -/
def parseTopLevel (line : List Char) (lineNo lineColumn : Nat)
    (doc : Document) (stack : List Context) :
    Except LoadError (Document × List Context) :=
  if line = "end".toList then
    .error (singleDiag "root" ⟨lineNo, lineColumn, 3⟩ "unexpected `end` at top level")
  else if line = "dot".toList ∨ ("dot ".toList.isPrefixOf line : Bool) then
    if doc.version.isSome then
      .error (singleDiag "version" ⟨lineNo, lineColumn, byteLen line⟩
        "duplicate `dot` version directive")
    else do
      let (version, versionSpan) ← parseSingleToken (line.drop 3) lineNo
        (lineColumn + 3) "version" "missing dot version"
      .ok ({ doc with version := some ⟨String.mk version, versionSpan⟩ }, stack)
  else if line = "app".toList ∨ ("app ".toList.isPrefixOf line : Bool) then
    if doc.metadata.app.isSome then
      .error (singleDiag "metadata.app" ⟨lineNo, lineColumn, byteLen line⟩
        "duplicate `app` statement")
    else do
      let (appName, appSpan) ← parseQuoted (line.drop 3) lineNo (lineColumn + 3)
        "metadata.app" "app name must be quoted"
      .ok ({ doc with metadata := { doc.metadata with app := some ⟨String.mk appName, appSpan⟩ } },
        stack)
  else if line = "project".toList ∨ ("project ".toList.isPrefixOf line : Bool) then
    if doc.metadata.project.isSome then
      .error (singleDiag "metadata.project" ⟨lineNo, lineColumn, byteLen line⟩
        "duplicate `project` statement")
    else do
      let (projectName, projectSpan) ← parseQuoted (line.drop 7) lineNo (lineColumn + 7)
        "metadata.project" "project name must be quoted"
      .ok ({ doc with
        metadata := { doc.metadata with project := some ⟨String.mk projectName, projectSpan⟩ } },
        stack)
  else if line = "allow".toList ∨ ("allow ".toList.isPrefixOf line : Bool) then do
    let (capability, capabilitySpan) ← parseSingleToken (line.drop 5) lineNo
      (lineColumn + 5) "capabilities" "missing capability name"
    .ok ({ doc with
      capabilities := doc.capabilities ++ [⟨String.mk capability, capabilitySpan⟩] }, stack)
  else if line = "server".toList ∨ ("server ".toList.isPrefixOf line : Bool) then
    if doc.server.isSome then
      .error (singleDiag "server" ⟨lineNo, lineColumn, byteLen line⟩
        "duplicate `server` statement")
    else do
      let rest := line.drop 6
      let (verb, verbSpan) ← parseSingleTokenPrefix rest lineNo (lineColumn + 6)
        "server" "missing server verb"
      if verb ≠ "listen".toList then
        .error (singleDiag "server" verbSpan ("unknown server verb `" ++ String.mk verb ++ "`"))
      else do
        let remainderStart := (trimStartBytes rest).2
        let afterVerb := dropBytes rest (remainderStart + byteLen verb)
        let (portRaw, portSpan) ← parseSingleToken afterVerb lineNo
          (verbSpan.column + verbSpan.length) "server.port" "missing server listen port"
        let port ← parseU16 portRaw portSpan "server.port" "invalid server port"
        .ok ({ doc with
          server := some ⟨⟨port, portSpan⟩, ⟨lineNo, lineColumn, byteLen line⟩⟩ }, stack)
  else if line = "api".toList ∨ ("api ".toList.isPrefixOf line : Bool) then do
    let (name, nameSpan) ← parseQuoted (line.drop 3) lineNo (lineColumn + 3)
      "apis" "api name must be quoted"
    let apiIndex := doc.apis.length
    .ok ({ doc with
      apis := doc.apis ++ [⟨⟨String.mk name, nameSpan⟩, [], ⟨lineNo, lineColumn, byteLen line⟩⟩] },
      Context.api apiIndex :: stack)
  else
    .error (singleDiag "root" ⟨lineNo, lineColumn, byteLen line⟩
      ("unknown statement `" ++ String.mk (firstToken line) ++ "`"))

/-- dot_dsl/src/parser.rs: `parse_api_line`. -/
def parseApiLine (line : List Char) (lineNo lineColumn : Nat)
    (doc : Document) (stack : List Context) (apiIndex : Nat) :
    Except LoadError (Document × List Context) :=
  if line = "end".toList then
    .ok (doc, stack.tail)
  else if line = "route".toList ∨ ("route ".toList.isPrefixOf line : Bool) then do
    let rest := line.drop 5
    let (verb, verbSpan) ← parseSingleTokenPrefix rest lineNo (lineColumn + 5)
      ("apis[" ++ toString apiIndex ++ "].routes") "missing route verb"
    let remainderStart := (trimStartBytes rest).2
    let afterVerb := dropBytes rest (remainderStart + byteLen verb)
    let (pathValue, pathSpan) ← parseQuoted afterVerb lineNo
      (verbSpan.column + verbSpan.length)
      ("apis[" ++ toString apiIndex ++ "].routes") "route path must be quoted"
    let routeIndex := (doc.apis.getD apiIndex dummyApi).routes.length
    let newRoute : Route :=
      ⟨⟨String.mk verb, verbSpan⟩, ⟨String.mk pathValue, pathSpan⟩, none,
        ⟨lineNo, lineColumn, byteLen line⟩⟩
    .ok ({ doc with
      apis := listModify doc.apis apiIndex (fun api => { api with routes := api.routes ++ [newRoute] }) },
      Context.route apiIndex routeIndex :: stack)
  else
    .error (singleDiag ("apis[" ++ toString apiIndex ++ "]")
      ⟨lineNo, lineColumn, byteLen line⟩
      ("unknown statement `" ++ String.mk (firstToken line) ++ "`"))

/-- dot_dsl/src/parser.rs: `parse_route_line`. -/
def parseRouteLine (line : List Char) (lineNo lineColumn : Nat)
    (doc : Document) (stack : List Context) (apiIndex routeIndex : Nat) :
    Except LoadError (Document × List Context) :=
  if line = "end".toList then
    .ok (doc, stack.tail)
  else if line = "respond".toList ∨ ("respond ".toList.isPrefixOf line : Bool) then do
    let rest := line.drop 7
    let semanticBase := "apis[" ++ toString apiIndex ++ "].routes[" ++ toString routeIndex ++ "]"
    let (statusRaw, statusSpan) ← parseSingleTokenPrefix rest lineNo (lineColumn + 7)
      (semanticBase ++ ".response") "missing response status code"
    let status ← parseU16 statusRaw statusSpan (semanticBase ++ ".response.status")
      "response status must be an integer"
    let remainderStart := (trimStartBytes rest).2
    let afterStatus := dropBytes rest (remainderStart + byteLen statusRaw)
    let (body, bodySpan) ← parseQuoted afterStatus lineNo
      (statusSpan.column + statusSpan.length) (semanticBase ++ ".response.body")
      "response body must be quoted"
    let route := (doc.apis.getD apiIndex dummyApi).routes.getD routeIndex dummyRoute
    if route.response.isSome then
      .error (singleDiag (semanticBase ++ ".response")
        ⟨lineNo, lineColumn, byteLen line⟩ "duplicate `respond` statement")
    else
      .ok ({ doc with
        apis := listModify doc.apis apiIndex (fun api =>
          { api with routes := listModify api.routes routeIndex (fun r =>
            { r with response := some (Response.mk ⟨status, statusSpan⟩
                ⟨String.mk body, bodySpan⟩ ⟨lineNo, lineColumn, byteLen line⟩) }) }) }, stack)
  else
    .error (singleDiag
      ("apis[" ++ toString apiIndex ++ "].routes[" ++ toString routeIndex ++ "]")
      ⟨lineNo, lineColumn, byteLen line⟩
      ("unknown statement `" ++ String.mk (firstToken line) ++ "`"))

/-- One iteration of the `parse` loop body for a single raw line (the
`last_line = line_no` update is handled by the caller `parseLoop`). -/
def stepLine (sourcePath : String) (raw : List Char) (lineNo : Nat)
    (doc : Document) (stack : List Context) :
    Except LoadError (Document × List Context) :=
  match statementLine raw with
  | none => .ok (doc, stack)
  | some (line, lineColumn) =>
    if line.isEmpty || line.head? = some '#' then .ok (doc, stack)
    else
      match stack with
      | [] => withPath (parseTopLevel line lineNo lineColumn doc stack) sourcePath
      | Context.api apiIndex :: _ =>
        withPath (parseApiLine line lineNo lineColumn doc stack apiIndex) sourcePath
      | Context.route apiIndex routeIndex :: _ =>
        withPath (parseRouteLine line lineNo lineColumn doc stack apiIndex routeIndex) sourcePath

/-- The `for (line_idx, raw_line) in source.lines().enumerate()` loop of
`parse`: processes the remaining lines, threading the document, the
context stack, and `last_line`. -/
def parseLoop (sourcePath : String) : List (List Char) → Nat → Nat →
    Document → List Context → Except LoadError (Document × List Context × Nat)
  | [], _, lastLine, doc, stack => .ok (doc, stack, lastLine)
  | raw :: rest, lineNo, _, doc, stack =>
    match stepLine sourcePath raw lineNo doc stack with
    | .error e => .error e
    | .ok (doc2, stack2) => parseLoop sourcePath rest (lineNo + 1) lineNo doc2 stack2

/-- dot_dsl/src/parser.rs: `parse`. -/
def parse (source : String) (sourcePath : String) : Except LoadError Document :=
  match parseLoop sourcePath (rustLines source) 1 1 defaultDocument [] with
  | .error e => .error e
  | .ok (doc, stack, lastLine) =>
    match stack with
    | ctx :: _ =>
      .error (LoadError.diagnostics sourcePath
        [⟨contextPath ctx, ⟨lastLine + 1, 1, 1⟩, "unclosed block; expected `end`"⟩])
    | [] => .ok doc

/-- dot_dsl/src/validate.rs: `SUPPORTED_VERSION`. -/
def SUPPORTED_VERSION : String := "0.1"

/-- dot_dsl/src/validate.rs: `ALLOWED_VERBS`. -/
def ALLOWED_VERBS : List String := ["GET", "POST", "PUT", "PATCH", "DELETE"]

/-- dot_dsl/src/validate.rs: `KNOWN_CAPABILITIES`. -/
def KNOWN_CAPABILITIES : List String := ["log", "net.http.listen"]

/-- dot_dsl/src/validate.rs: `fallback_span`. -/
def fallback_span (doc : Document) : Span :=
  match doc.version with
  | some version => version.span
  | none =>
    match doc.metadata.app with
    | some app => app.span
    | none =>
      match doc.metadata.project with
      | some project => project.span
      | none =>
        match doc.server with
        | some server => server.span
        | none =>
          match doc.apis.head? with
          | some api => api.span
          | none => ⟨1, 1, 1⟩

/-- dot_dsl/src/validate.rs: `validate_route` (diagnostics pushed in
source order). -/
def validateRoute (route : Route) (apiIndex routeIndex : Nat) : List Diagnostic :=
  let base := "apis[" ++ toString apiIndex ++ "].routes[" ++ toString routeIndex ++ "]"
  (if ALLOWED_VERBS.contains route.verb.value then []
   else [⟨base ++ ".verb", route.verb.span, "unknown HTTP verb `" ++ route.verb.value ++ "`"⟩]) ++
  (if route.path.value.toList.head? = some '/' then []
   else [⟨base ++ ".path", route.path.span, "route path must start with `/`"⟩]) ++
  (if route.path.value.toList.any Char.isWhitespace then
     [⟨base ++ ".path", route.path.span, "route path cannot contain whitespace"⟩]
   else []) ++
  (match route.response with
   | some response =>
     if 100 ≤ response.status.value ∧ response.status.value ≤ 599 then []
     else [⟨base ++ ".response.status", response.status.span,
       "response status must be in range 100..=599"⟩]
   | none => [⟨base ++ ".response", route.span, "missing required `respond` statement"⟩])

/-- dot_dsl/src/validate.rs: the list of diagnostics accumulated by
`validate`, in push order. -/
def validateDiags (doc : Document) : List Diagnostic :=
  (match doc.version with
   | some version =>
     if version.value = SUPPORTED_VERSION then []
     else [⟨"version", version.span,
       "unsupported dot version `" ++ version.value ++ "`; expected `" ++ SUPPORTED_VERSION ++ "`"⟩]
   | none => [⟨"version", fallback_span doc, "missing required `dot` version directive"⟩]) ++
  (if doc.metadata.app.isNone ∧ doc.metadata.project.isNone then
     [⟨"metadata", fallback_span doc, "missing required metadata; expected `app` or `project`"⟩]
   else []) ++
  (doc.capabilities.enum.flatMap (fun ic =>
    if KNOWN_CAPABILITIES.contains ic.2.value then []
    else [⟨"capabilities[" ++ toString ic.1 ++ "]", ic.2.span,
      "unknown capability `" ++ ic.2.value ++ "`"⟩])) ++
  (match doc.server with
   | some server =>
     (if doc.capabilities.any (fun c => c.value = "net.http.listen") then []
      else [⟨"capabilities", server.span,
        "missing required capability `net.http.listen` for `server listen`"⟩]) ++
     (if server.port.value = 0 then
        [⟨"server.port", server.port.span, "server port must be in range 1..=65535"⟩]
      else [])
   | none => []) ++
  (if doc.apis.isEmpty then
     [⟨"apis", fallback_span doc, "at least one `api` block is required"⟩]
   else []) ++
  (doc.apis.enum.flatMap (fun ia =>
    (if ia.2.routes.isEmpty then
       [⟨"apis[" ++ toString ia.1 ++ "].routes", ia.2.span, "api must contain at least one route"⟩]
     else []) ++
    ia.2.routes.enum.flatMap (fun jr => validateRoute jr.2 ia.1 jr.1)))

/-- dot_dsl/src/validate.rs: `validate`. -/
def validate (doc : Document) (sourcePath : String) : Except LoadError Unit :=
  match validateDiags doc with
  | [] => .ok ()
  | ds => .error (LoadError.diagnostics sourcePath ds)

/-- dot_dsl/src/lib.rs: `parse_and_validate`. -/
def parse_and_validate (source : String) (sourcePath : String) :
    Except LoadError Document := do
  let doc ← parse source sourcePath
  let _ ← validate doc sourcePath
  .ok doc

/-- Modelled from the spec's words (§4.6): the escaping map `E` — `"` to
`\"`, `\` to `\\`, newline to `\n`, carriage return to `\r`, tab to
`\t`, every other character below U+0020 to `\u00XX` (two lowercase hex
digits), all other characters unchanged. Stated independently of
`json_escape_char` so the two can be compared. -/
def specEscape (c : Char) : List Char :=
  if c = '"' then ['\\', '"']
  else if c = '\\' then ['\\', '\\']
  else if c = '\n' then ['\\', 'n']
  else if c = '\r' then ['\\', 'r']
  else if c = '\t' then ['\\', 't']
  else if c < ' ' then ['\\', 'u', '0', '0', hexDigit (c.toNat / 16), hexDigit (c.toNat % 16)]
  else [c]

/-- Helper for C10: if the first `k` result registers of the write-back
pairs are in bounds and the `k`-th is out of bounds, the write-back loop
fails with `RegisterOutOfBounds` on the `k`-th register, leaving exactly
the first `k` writes applied. -/
theorem writeLoop_firstFault (results : List Reg) (returned : List Value)
    (regs : List Value) (k : Nat)
    (hlen : returned.length = results.length)
    (hk : k < results.length)
    (hoob : regs.length ≤ results.getD k 0)
    (hpre : ∀ i, i < k → results.getD i 0 < regs.length) :
    writeLoop ⟨regs⟩ (results.zip returned) =
      (Except.error (VmError.registerOutOfBounds (results.getD k 0) regs.length),
       ⟨((results.zip returned).take k).foldl (fun rs rv => rs.set rv.1 rv.2) regs⟩) := by
  induction results generalizing returned regs k with
  | nil => exact absurd hk (Nat.not_lt_zero k)
  | cons r rest ih =>
    cases returned with
    | nil => simp at hlen
    | cons v vrest =>
      have hlen' : vrest.length = rest.length := by simpa using hlen
      rw [List.zip_cons_cons]
      cases k with
      | zero =>
        have hr : ¬ r < regs.length := Nat.not_lt.mpr (by simpa using hoob)
        simp [writeLoop, RegisterFile.set, hr]
      | succ k' =>
        have hr : r < regs.length := by
          have := hpre 0 (Nat.succ_pos k')
          simpa using this
        have hk' : k' < rest.length := by simpa using hk
        have hoob' : (regs.set r v).length ≤ rest.getD k' 0 := by
          rw [List.length_set]
          simpa using hoob
        have hpre' : ∀ i, i < k' → rest.getD i 0 < (regs.set r v).length := by
          intro i hi
          rw [List.length_set]
          have := hpre (i + 1) (by omega)
          simpa using this
        have hset : RegisterFile.set ⟨regs⟩ r v = Except.ok ⟨regs.set r v⟩ := by
          simp [RegisterFile.set, hr]
        have ih' := ih vrest (regs.set r v) k' hlen' hk' hoob' hpre'
        calc writeLoop ⟨regs⟩ ((r, v) :: rest.zip vrest)
            = writeLoop ⟨regs.set r v⟩ (rest.zip vrest) := by
              simp [writeLoop, hset]
          _ = _ := by
              rw [ih']
              simp [List.length_set]

/-- Claim C10: on a Syscall step where the host succeeds with matching
arity but the `k`-th result register (the first out-of-bounds one) is
out of bounds, the step fails with `RegisterOutOfBounds` after having
written every earlier result register with its returned value (the
write-back is not atomic), while `ip` and `halted` are unchanged. -/
theorem C10_syscall_writeback_nonatomic (vm : Vm) (hf : HostFn) (hasSink : Bool)
    (id : SyscallId) (args results : List Reg) (values returned : List Value) (k : Nat)
    (hhalt : vm.halted = false)
    (hfetch : vm.program.get? vm.ip = some (Instruction.syscall id args results))
    (hread : readArgs vm.registers args = Except.ok values)
    (hcall : hf id values = Except.ok returned)
    (hlen : returned.length = results.length)
    (hk : k < results.length)
    (hoob : vm.registers.registers.length ≤ results.getD k 0)
    (hpre : ∀ i, i < k → results.getD i 0 < vm.registers.registers.length) :
    stepInner vm (some hf) hasSink =
      ⟨Except.error (VmError.registerOutOfBounds (results.getD k 0)
          vm.registers.registers.length),
       { vm with registers := ⟨((results.zip returned).take k).foldl
          (fun rs rv => rs.set rv.1 rv.2) vm.registers.registers⟩ },
       sinkEmit hasSink ⟨id, values, Except.ok returned⟩⟩ := by
  have hfetch2 : vm.program[vm.ip]? = some (Instruction.syscall id args results) := by
    simpa using hfetch
  have hw : writeLoop vm.registers (results.zip returned) =
      (Except.error (VmError.registerOutOfBounds (results.getD k 0)
        vm.registers.registers.length),
       ⟨((results.zip returned).take k).foldl (fun rs rv => rs.set rv.1 rv.2)
        vm.registers.registers⟩) :=
    writeLoop_firstFault results returned vm.registers.registers k hlen hk hoob hpre
  simp [stepInner, hhalt, hfetch2, hread, hcall, hlen, hw]

/-- Witness for C10 at a concrete input: program `[Syscall 3 [] [0, 1]]`,
one register holding `I64 9`, host returning `[I64 1, I64 2]`; register 0
is overwritten before the failing write to register 1. -/
theorem C10_syscall_writeback_nonatomic_witness :
    ((⟨[Instruction.syscall 3 [] [0, 1]], ⟨[Value.i64 9]⟩, 0, false⟩ : Vm).halted = false) ∧
    stepInner ⟨[Instruction.syscall 3 [] [0, 1]], ⟨[Value.i64 9]⟩, 0, false⟩
        (some (fun _ _ => Except.ok [Value.i64 1, Value.i64 2])) false =
      ⟨Except.error (VmError.registerOutOfBounds 1 1),
       ⟨[Instruction.syscall 3 [] [0, 1]], ⟨[Value.i64 1]⟩, 0, false⟩, []⟩ := by
  constructor
  · rfl
  · have h := C10_syscall_writeback_nonatomic
      ⟨[Instruction.syscall 3 [] [0, 1]], ⟨[Value.i64 9]⟩, 0, false⟩
      (fun _ _ => Except.ok [Value.i64 1, Value.i64 2]) false
      3 [] [0, 1] [] [Value.i64 1, Value.i64 2] 1
      rfl rfl rfl rfl rfl (by decide) (by decide)
      (by intro i hi; have hi0 : i = 0 := by omega
          subst hi0; decide)
    exact h

/-- Claim C4 (as amended in no respect — the host call is presupposed by
the claim's wording): stepping a Syscall instruction with a host and an
event sink, once the argument reads succeed, emits exactly one
`VmEvent::Syscall` whose `args` are the read values and whose `result`
mirrors the host's outcome; when the host errors, the step returns
`SyscallFailed` with that error. -/
theorem C4_syscall_event_emission (vm : Vm) (hf : HostFn) (id : SyscallId)
    (args results : List Reg) (values : List Value)
    (hhalt : vm.halted = false)
    (hfetch : vm.program.get? vm.ip = some (Instruction.syscall id args results))
    (hread : readArgs vm.registers args = Except.ok values) :
    (stepInner vm (some hf) true).events =
      [VmEvent.syscall ⟨id, values, hf id values⟩] ∧
    (∀ err, hf id values = Except.error err →
      (stepInner vm (some hf) true).result = Except.error (VmError.syscallFailed id err)) := by
  have hfetch2 : vm.program[vm.ip]? = some (Instruction.syscall id args results) := by
    simpa using hfetch
  cases hcall : hf id values with
  | error err =>
    constructor
    · simp [stepInner, hhalt, hfetch2, hread, hcall, sinkEmit]
    · intro err2 hcall2
      injection hcall2 with h2
      subst h2
      simp [stepInner, hhalt, hfetch2, hread, hcall]
  | ok returned =>
    constructor
    · by_cases hl : returned.length = results.length
      · cases hwrite : writeLoop vm.registers (results.zip returned) with
        | mk wres wrf =>
          cases wres with
          | error e2 => simp [stepInner, hhalt, hfetch2, hread, hcall, hl, hwrite, sinkEmit]
          | ok u => simp [stepInner, hhalt, hfetch2, hread, hcall, hl, hwrite, sinkEmit]
      · simp [stepInner, hhalt, hfetch2, hread, hcall, hl, sinkEmit]
    · intro err hcall2
      simp at hcall2

/-- Witness for C4 at a concrete input mirroring the repository's
`syscall_error_emits_event_before_failing` test: syscall id 2, no args,
host failing with `boom`. -/
theorem C4_syscall_event_emission_witness :
    ((⟨[Instruction.syscall 2 [] []], ⟨[]⟩, 0, false⟩ : Vm).halted = false) ∧
    (stepInner ⟨[Instruction.syscall 2 [] []], ⟨[]⟩, 0, false⟩
        (some (fun _ _ => Except.error ⟨"boom"⟩)) true).events =
      [VmEvent.syscall ⟨2, [], Except.error ⟨"boom"⟩⟩] ∧
    (stepInner ⟨[Instruction.syscall 2 [] []], ⟨[]⟩, 0, false⟩
        (some (fun _ _ => Except.error ⟨"boom"⟩)) true).result =
      Except.error (VmError.syscallFailed 2 ⟨"boom"⟩) := by
  have h := C4_syscall_event_emission
    ⟨[Instruction.syscall 2 [] []], ⟨[]⟩, 0, false⟩
    (fun _ _ => Except.error ⟨"boom"⟩) 2 [] [] [] rfl rfl rfl
  exact ⟨rfl, h.1, h.2 ⟨"boom"⟩ rfl⟩

/-- Counterexample to claim C3 as stated: a failing step (register 2 of
result write-back out of bounds) that changes the value of the Syscall
args register 0 from `I64 7` to `I64 1` — a register read by the failing
instruction does not hold the same value as before the step. -/
theorem C3_failing_step_modifies_arg_register :
    (stepInner ⟨[Instruction.syscall 0 [0] [0, 5]], ⟨[Value.i64 7]⟩, 0, false⟩
        (some (fun _ _ => Except.ok [Value.i64 1, Value.i64 2])) false).result =
      Except.error (VmError.registerOutOfBounds 5 1) ∧
    RegisterFile.get (⟨[Value.i64 7]⟩ : RegisterFile) 0 = Except.ok (Value.i64 7) ∧
    RegisterFile.get (stepInner ⟨[Instruction.syscall 0 [0] [0, 5]], ⟨[Value.i64 7]⟩, 0, false⟩
        (some (fun _ _ => Except.ok [Value.i64 1, Value.i64 2])) false).vm.registers 0 =
      Except.ok (Value.i64 1) ∧
    Value.i64 1 ≠ Value.i64 7 :=
  ⟨rfl, rfl, rfl, by decide⟩

/-- Claim C3 as amended: after any failing step, `ip`, `halted` (and the
program) are unchanged, and the registers — in particular all registers
read by the failing instruction — are unchanged unless the failure is a
`RegisterOutOfBounds` raised during the syscall result write-back
(`writeBackFault`), where already-written result registers may have been
overwritten. -/
theorem C3_failing_step_preserves_frame (vm : Vm) (host : Option HostFn) (hasSink : Bool)
    (e : VmError) (h : (stepInner vm host hasSink).result = Except.error e) :
    (stepInner vm host hasSink).vm.ip = vm.ip ∧
    (stepInner vm host hasSink).vm.halted = vm.halted ∧
    (writeBackFault vm host = false →
      (stepInner vm host hasSink).vm.registers = vm.registers) := by
  cases hh : vm.halted with
  | true => simp [stepInner, hh]
  | false =>
    cases hfetch : vm.program[vm.ip]? with
    | none => simp [stepInner, hh, hfetch]
    | some instr =>
      cases instr with
      | halt => simp [stepInner, hh, hfetch] at h
      | loadConst dst value =>
        cases hset : vm.registers.set dst value with
        | error e2 => simp [stepInner, hh, hfetch, hset]
        | ok rf => simp [stepInner, hh, hfetch, hset] at h
      | mov dst src =>
        cases hget : vm.registers.get src with
        | error e2 => simp [stepInner, hh, hfetch, hget]
        | ok v =>
          cases hset : vm.registers.set dst v with
          | error e2 => simp [stepInner, hh, hfetch, hget, hset]
          | ok rf => simp [stepInner, hh, hfetch, hget, hset] at h
      | syscall id args results =>
        cases host with
        | none => simp [stepInner, hh, hfetch]
        | some hf =>
          cases hread : readArgs vm.registers args with
          | error e2 => simp [stepInner, hh, hfetch, hread]
          | ok values =>
            cases hcall : hf id values with
            | error err => simp [stepInner, hh, hfetch, hread, hcall]
            | ok returned =>
              by_cases hl : returned.length = results.length
              · cases hwrite : writeLoop vm.registers (results.zip returned) with
                | mk wres wrf =>
                  cases wres with
                  | error e2 =>
                    refine ⟨?_, ?_, ?_⟩
                    · simp [stepInner, hh, hfetch, hread, hcall, hl, hwrite]
                    · simp [stepInner, hh, hfetch, hread, hcall, hl, hwrite]
                    · intro hwb
                      exfalso
                      simp [writeBackFault, hh, hfetch, hread, hcall, hl, hwrite] at hwb
                  | ok u => simp [stepInner, hh, hfetch, hread, hcall, hl, hwrite] at h
              · simp [stepInner, hh, hfetch, hread, hcall, hl]

/-- Witness for the amended C3 at a concrete input: a failing `Mov` from
an out-of-bounds source register leaves `ip`, `halted` and the registers
unchanged. -/
theorem C3_failing_step_preserves_frame_witness :
    (stepInner ⟨[Instruction.mov 0 5], ⟨[Value.unit]⟩, 0, false⟩ none false).result =
      Except.error (VmError.registerOutOfBounds 5 1) ∧
    ((stepInner ⟨[Instruction.mov 0 5], ⟨[Value.unit]⟩, 0, false⟩ none false).vm.ip = 0 ∧
     (stepInner ⟨[Instruction.mov 0 5], ⟨[Value.unit]⟩, 0, false⟩ none false).vm.halted = false ∧
     (writeBackFault ⟨[Instruction.mov 0 5], ⟨[Value.unit]⟩, 0, false⟩ none = false →
       (stepInner ⟨[Instruction.mov 0 5], ⟨[Value.unit]⟩, 0, false⟩ none false).vm.registers =
         ⟨[Value.unit]⟩)) :=
  ⟨rfl, C3_failing_step_preserves_frame
    ⟨[Instruction.mov 0 5], ⟨[Value.unit]⟩, 0, false⟩ none false
    (VmError.registerOutOfBounds 5 1) rfl⟩

/-- Claim C1 (the capability-denial text the spec prescribes): enforcing
the spec's `NetHttpListen` syscall enumeration member against any
capability set lacking `NetHttpListen` fails, and the denial error
displays exactly the claimed text. dot_ops's `syscall_http_serve`
performs this enforcement first, before any serving; however, the code
as written names the nonexistent variant `Syscall::NetHttpServe`
(dot_ops/src/lib.rs:168), a variant absent from dot_sec's closed
`Syscall` enumeration, so the crate does not compile as given; this
theorem covers the enforcement dot_sec defines. -/
theorem C1_http_serve_capability_denial_text (s : CapabilitySet)
    (hno : s.contains Capability.netHttpListen = false) :
    s.enforce Syscall.netHttpListen = Except.error ⟨Syscall.netHttpListen⟩ ∧
    SyscallDeniedError.toDisplay ⟨Syscall.netHttpListen⟩ =
      "capability denied: syscall `net.http.listen` requires capability `net.http.listen`. Hint: add `allow net.http.listen`. Declare it in your `.dot` file with an `allow ...` statement." := by
  constructor
  · unfold CapabilitySet.enforce
    have hreq : Syscall.netHttpListen.required_capability = Capability.netHttpListen := rfl
    rw [hreq, hno]
    simp
  · rfl

/-- Witness for C1 at the empty (deny-by-default) capability set. -/
theorem C1_http_serve_capability_denial_text_witness :
    CapabilitySet.empty.contains Capability.netHttpListen = false ∧
    CapabilitySet.empty.enforce Syscall.netHttpListen =
      Except.error ⟨Syscall.netHttpListen⟩ ∧
    SyscallDeniedError.toDisplay ⟨Syscall.netHttpListen⟩ =
      "capability denied: syscall `net.http.listen` requires capability `net.http.listen`. Hint: add `allow net.http.listen`. Declare it in your `.dot` file with an `allow ...` statement." := by
  refine ⟨rfl, ?_⟩
  have h := C1_http_serve_capability_denial_text CapabilitySet.empty rfl
  exact h

/-- Counterexample to claim C2 as stated: with the `Log` capability
granted, `log.emit` called with TWO arguments (first one a string)
succeeds — the code checks only that the first argument is a string
(`args.first().and_then(OpValue::as_str)`), so "exactly one string
argument" is not enforced. -/
theorem C2_log_emit_extra_args_accepted :
    OpsHost.syscall_log_emit ⟨⟨[Capability.log]⟩, RecordMode.record, "", []⟩
        [Value.str "hi", Value.str "extra"] =
      (Except.ok [],
       ⟨⟨[Capability.log]⟩, RecordMode.record, "hi\n",
        ["\x7b\"type\":\"log\",\"message\":\"hi\"\x7d"]⟩) ∧
    [Value.str "hi", Value.str "extra"].length ≠ 1 :=
  ⟨rfl, by decide⟩

/-- Claim C2 as amended: with the `Log` capability granted, `log.emit`
succeeds (writing `message` + newline to the stdout sink, appending the
log event line to the run when the record mode is `Record`, and
returning `[]`) if and only if the FIRST argument exists and is a
string — extra arguments are ignored; otherwise it fails with exactly
`log.emit expects 1 string argument`. -/
theorem C2_log_emit_first_string_arg (h : OpsHost) (args : List Value)
    (hcap : h.capabilities.contains Capability.log = true) :
    (∀ s rest, args = Value.str s :: rest →
      h.syscall_log_emit args =
        (Except.ok [],
         { h with
           stdout := h.stdout ++ s ++ "\n"
           run_log := if h.record_mode = RecordMode.record
             then h.run_log ++ [RunEvent.to_json_line (RunEvent.log s)]
             else h.run_log })) ∧
    ((∀ s rest, args ≠ Value.str s :: rest) →
      h.syscall_log_emit args =
        (Except.error ⟨"log.emit expects 1 string argument"⟩, h)) := by
  have henf : h.capabilities.enforce Syscall.logEmit = Except.ok () := by
    unfold CapabilitySet.enforce
    have hreq : Syscall.logEmit.required_capability = Capability.log := rfl
    rw [hreq, hcap]
    simp
  constructor
  · rintro s rest rfl
    by_cases hm : h.record_mode = RecordMode.record
    · simp [OpsHost.syscall_log_emit, henf, Value.as_str, OpsHost.record_event, hm]
    · simp [OpsHost.syscall_log_emit, henf, Value.as_str, OpsHost.record_event, hm]
  · intro hne
    have hhead : args.head?.bind Value.as_str = none := by
      cases args with
      | nil => rfl
      | cons a rest =>
        cases a with
        | str s => exact absurd rfl (hne s rest)
        | unit => rfl
        | bool b => rfl
        | i64 n => rfl
        | bytes bs => rfl
    simp [OpsHost.syscall_log_emit, henf, hhead]

/-- Witness for the amended C2 at a concrete input (`Passthrough` record
mode, single string argument `ok`). -/
theorem C2_log_emit_first_string_arg_witness :
    (CapabilitySet.contains ⟨[Capability.log]⟩ Capability.log = true) ∧
    OpsHost.syscall_log_emit ⟨⟨[Capability.log]⟩, RecordMode.passthrough, "", []⟩
        [Value.str "ok"] =
      (Except.ok [], ⟨⟨[Capability.log]⟩, RecordMode.passthrough, "ok\n", []⟩) := by
  refine ⟨rfl, ?_⟩
  have h := (C2_log_emit_first_string_arg
    ⟨⟨[Capability.log]⟩, RecordMode.passthrough, "", []⟩ [Value.str "ok"] rfl).1 "ok" [] rfl
  simpa using h

/-- Helper for C7: the code's per-character escape agrees with the
spec's escaping map `E`. -/
theorem json_escape_char_eq_specEscape (c : Char) :
    json_escape_char c = specEscape c := by
  unfold json_escape_char specEscape
  by_cases h1 : c = '"'
  · simp [h1]
  by_cases h2 : c = '\\'
  · simp [h1, h2]
  by_cases h3 : c = '\n'
  · simp [h1, h2, h3]
  by_cases h4 : c = '\r'
  · simp [h1, h2, h3, h4]
  by_cases h5 : c = '\t'
  · simp [h1, h2, h3, h4, h5]
  by_cases h6 : c < ' '
  · have hlt : c.toNat < 32 := h6
    have e1 : c.toNat / 4096 % 16 = 0 := by omega
    have e2 : c.toNat / 256 % 16 = 0 := by omega
    have e3 : c.toNat / 16 % 16 = c.toNat / 16 := by omega
    have h0 : hexDigit 0 = '0' := by decide
    simp [h1, h2, h3, h4, h5, h6, hex4, e1, e2, e3, h0]
  · simp [h1, h2, h3, h4, h5, h6]

/-- Claim C7: the run-event line for a log event is exactly the one-line
JSON object with the message escaped by the spec's map `E`
(`specEscape`), with no trailing whitespace. -/
theorem C7_log_event_json_line (message : String) :
    RunEvent.to_json_line (RunEvent.log message) =
      "\x7b\"type\":\"log\",\"message\":" ++
        ("\"" ++ String.mk (message.toList.foldr (fun c acc => specEscape c ++ acc) []) ++ "\"") ++
      "\x7d" := by
  have hfold : ∀ l : List Char,
      l.foldr (fun c acc => json_escape_char c ++ acc) [] =
        l.foldr (fun c acc => specEscape c ++ acc) [] := by
    intro l
    induction l with
    | nil => rfl
    | cons c rest ih => simp [json_escape_char_eq_specEscape, ih]
  simp only [RunEvent.to_json_line, json_string]
  rw [hfold]

/-- Claim C9: the validator's fallback span is the span of the first
present node in priority order — `version`, `metadata.app`,
`metadata.project`, `server`, first `api` — and `(1,1,1)` when none
exists; and the validator uses it for the missing-version,
missing-metadata and empty-apis diagnostics. -/
theorem C9_fallback_span_priority (doc : Document) :
    (∀ v, doc.version = some v → fallback_span doc = v.span) ∧
    (∀ a, doc.version = none → doc.metadata.app = some a → fallback_span doc = a.span) ∧
    (∀ p, doc.version = none → doc.metadata.app = none → doc.metadata.project = some p →
      fallback_span doc = p.span) ∧
    (∀ srv, doc.version = none → doc.metadata.app = none → doc.metadata.project = none →
      doc.server = some srv → fallback_span doc = srv.span) ∧
    (∀ api rest, doc.version = none → doc.metadata.app = none → doc.metadata.project = none →
      doc.server = none → doc.apis = api :: rest → fallback_span doc = api.span) ∧
    (doc.version = none → doc.metadata.app = none → doc.metadata.project = none →
      doc.server = none → doc.apis = [] → fallback_span doc = ⟨1, 1, 1⟩) ∧
    (doc.version = none →
      (⟨"version", fallback_span doc, "missing required `dot` version directive"⟩ : Diagnostic)
        ∈ validateDiags doc) ∧
    (doc.metadata.app = none → doc.metadata.project = none →
      (⟨"metadata", fallback_span doc,
        "missing required metadata; expected `app` or `project`"⟩ : Diagnostic)
        ∈ validateDiags doc) ∧
    (doc.apis = [] →
      (⟨"apis", fallback_span doc, "at least one `api` block is required"⟩ : Diagnostic)
        ∈ validateDiags doc) := by
  refine ⟨?_, ?_, ?_, ?_, ?_, ?_, ?_, ?_, ?_⟩
  · intro v hv
    simp [fallback_span, hv]
  · intro a hv ha
    simp [fallback_span, hv, ha]
  · intro p hv ha hp
    simp [fallback_span, hv, ha, hp]
  · intro srv hv ha hp hs
    simp [fallback_span, hv, ha, hp, hs]
  · intro api rest hv ha hp hs hapis
    simp [fallback_span, hv, ha, hp, hs, hapis]
  · intro hv ha hp hs hapis
    simp [fallback_span, hv, ha, hp, hs, hapis]
  · intro hv
    simp [validateDiags, hv]
  · intro ha hp
    simp [validateDiags, ha, hp]
  · intro hapis
    simp [validateDiags, hapis]

/-- Witness for C9 at the empty document: everything absent, fallback
`(1,1,1)`, and the missing-version diagnostic carries it. -/
theorem C9_fallback_span_priority_witness :
    fallback_span defaultDocument = ⟨1, 1, 1⟩ ∧
    (⟨"version", fallback_span defaultDocument,
      "missing required `dot` version directive"⟩ : Diagnostic)
      ∈ validateDiags defaultDocument := by
  have h := C9_fallback_span_priority defaultDocument
  exact ⟨h.2.2.2.2.2.1 rfl rfl rfl rfl rfl, h.2.2.2.2.2.2.1 rfl⟩

/-- Helper for C5: when the parse loop finishes without a fail-fast
error, the `last_line` it returns is the number of the last physical
line processed (the line count), or its initial value when there were no
lines (in which case document and stack are also unchanged). -/
theorem parseLoop_ok_last (sourcePath : String) (ls : List (List Char))
    (lineNo lastLine0 : Nat) (doc : Document) (stack : List Context)
    (doc2 : Document) (stack2 : List Context) (lastLine : Nat)
    (h : parseLoop sourcePath ls lineNo lastLine0 doc stack =
      Except.ok (doc2, stack2, lastLine)) :
    (ls = [] → doc2 = doc ∧ stack2 = stack ∧ lastLine = lastLine0) ∧
    (ls ≠ [] → lastLine = lineNo + ls.length - 1) := by
  induction ls generalizing lineNo lastLine0 doc stack with
  | nil =>
    constructor
    · intro _
      simp [parseLoop] at h
      exact ⟨h.1.symm, h.2.1.symm, h.2.2.symm⟩
    · intro hne
      exact absurd rfl hne
  | cons raw rest ih =>
    constructor
    · intro hc
      exact absurd hc (List.cons_ne_nil raw rest)
    · intro _
      rw [parseLoop] at h
      cases hstep : stepLine sourcePath raw lineNo doc stack with
      | error e =>
        rw [hstep] at h
        simp at h
      | ok pair =>
        obtain ⟨d2, s2⟩ := pair
        rw [hstep] at h
        have hih := ih (lineNo + 1) lineNo d2 s2 h
        cases rest with
        | nil =>
          have h0 := (hih.1 rfl).2.2
          simp [h0]
        | cons r2 rs =>
          have h1 := hih.2 (List.cons_ne_nil r2 rs)
          simp only [List.length_cons] at h1 ⊢
          omega

/-- Claim C5: whenever the parse loop reaches end of input with a
non-empty context stack, `parse` fails with exactly one diagnostic whose
span is `(last_line + 1, 1, 1)` — `last_line` being the number of the
last physical line — whose semantic path is that of the innermost open
frame (`apis[i]` for an api frame, `apis[i].routes[j]` for a route
frame), and whose message is `unclosed block; expected \`end\``. -/
theorem C5_unclosed_block_diagnostic (source sourcePath : String) (doc : Document)
    (ctx : Context) (rest : List Context) (lastLine : Nat)
    (h : parseLoop sourcePath (rustLines source) 1 1 defaultDocument [] =
      Except.ok (doc, ctx :: rest, lastLine)) :
    parse source sourcePath =
      Except.error (LoadError.diagnostics sourcePath
        [⟨contextPath ctx, ⟨lastLine + 1, 1, 1⟩, "unclosed block; expected `end`"⟩]) ∧
    lastLine = (rustLines source).length ∧
    (∀ i, contextPath (Context.api i) = "apis[" ++ toString i ++ "]") ∧
    (∀ i j, contextPath (Context.route i j) =
      "apis[" ++ toString i ++ "].routes[" ++ toString j ++ "]") := by
  refine ⟨?_, ?_, fun i => rfl, fun i j => rfl⟩
  · unfold parse
    rw [h]
  · have hl := parseLoop_ok_last sourcePath (rustLines source) 1 1 defaultDocument []
      doc (ctx :: rest) lastLine h
    cases hls : rustLines source with
    | nil =>
      rw [hls] at h
      simp [parseLoop] at h
    | cons l ls =>
      have h2 := hl.2 (by rw [hls]; exact List.cons_ne_nil l ls)
      rw [hls] at h2
      simp only [List.length_cons] at h2 ⊢
      omega

/-- Witness for C5 at the concrete source `api "x"` (one line, no
`end`): the loop ends with the api frame open and `parse` reports the
unclosed block at `(2, 1, 1)` with path `apis[0]`. -/
theorem C5_unclosed_block_diagnostic_witness :
    parseLoop "w.dot" (rustLines "api \"x\"") 1 1 defaultDocument [] =
      Except.ok (⟨none, ⟨none, none⟩, [], none,
        [⟨⟨"x", ⟨1, 5, 3⟩⟩, [], ⟨1, 1, 7⟩⟩]⟩, [Context.api 0], 1) ∧
    parse "api \"x\"" "w.dot" =
      Except.error (LoadError.diagnostics "w.dot"
        [⟨"apis[0]", ⟨2, 1, 1⟩, "unclosed block; expected `end`"⟩]) := by
  constructor
  · rfl
  · have h := (C5_unclosed_block_diagnostic "api \"x\"" "w.dot"
      ⟨none, ⟨none, none⟩, [], none, [⟨⟨"x", ⟨1, 5, 3⟩⟩, [], ⟨1, 1, 7⟩⟩]⟩
      (Context.api 0) [] 1 rfl).1
    exact h

/-- Claim C6: `server listen 0` is accepted by the parser — the document
carries a server node with port value 0 whose port span `(1,15,1)`
covers exactly the digit `0` — and rejected by the validator with a
diagnostic at path `server.port`, the port's span (not the statement
span `(1,1,15)`), and message `server port must be in range 1..=65535`. -/
theorem C6_server_port_zero_split :
    parse "server listen 0" "w.dot" =
      Except.ok ⟨none, ⟨none, none⟩, [], some ⟨⟨0, ⟨1, 15, 1⟩⟩, ⟨1, 1, 15⟩⟩, []⟩ ∧
    (⟨"server.port", ⟨1, 15, 1⟩, "server port must be in range 1..=65535"⟩ : Diagnostic) ∈
      validateDiags ⟨none, ⟨none, none⟩, [], some ⟨⟨0, ⟨1, 15, 1⟩⟩, ⟨1, 1, 15⟩⟩, []⟩ ∧
    validate ⟨none, ⟨none, none⟩, [], some ⟨⟨0, ⟨1, 15, 1⟩⟩, ⟨1, 1, 15⟩⟩, []⟩ "w.dot" ≠
      Except.ok () := by
  refine ⟨rfl, ?_, ?_⟩
  · decide
  · decide

/-- Claim C8: in the quoted-string helper, the escapes `\"`, `\\`, `\n`,
`\t` decode to quote, backslash, newline and tab, any other `\x` decodes
to the two literal characters `\x`, and a successful parse returns the
unescaped raw literal with a span of length `close_index + 1` starting
at the opening quote. -/
theorem C8_quoted_string_escapes_and_span :
    (∀ rest, unescape ('\\' :: '"' :: rest) = '"' :: unescape rest) ∧
    (∀ rest, unescape ('\\' :: '\\' :: rest) = '\\' :: unescape rest) ∧
    (∀ rest, unescape ('\\' :: 'n' :: rest) = '\n' :: unescape rest) ∧
    (∀ rest, unescape ('\\' :: 't' :: rest) = '\t' :: unescape rest) ∧
    (∀ c rest, c ≠ '"' → c ≠ '\\' → c ≠ 'n' → c ≠ 't' →
      unescape ('\\' :: c :: rest) = '\\' :: c :: unescape rest) ∧
    (∀ input lineNo baseColumn semPath missingMsg value span,
      parseQuoted input lineNo baseColumn semPath missingMsg = Except.ok (value, span) →
      ∃ closeIndex,
        scanCloseAux (trimStartBytes input).1.tail 1 false = some closeIndex ∧
        span = ⟨lineNo, baseColumn + (trimStartBytes input).2, closeIndex + 1⟩ ∧
        value = unescape (takeBytes (trimStartBytes input).1.tail (closeIndex - 1))) := by
  refine ⟨fun rest => rfl, fun rest => rfl, fun rest => rfl, fun rest => rfl, ?_, ?_⟩
  · intro c rest h1 h2 h3 h4
    simp [unescape, h1, h2, h3, h4]
  · intro input lineNo baseColumn semPath missingMsg value span h
    rcases htrim : trimStartBytes input with ⟨trimmed, lws⟩
    simp only [parseQuoted] at h
    rw [htrim] at h
    dsimp only at h ⊢
    split at h
    · rename_i tail
      split at h
      · simp at h
      · rename_i closeIndex hscan
        split at h
        · simp at h
        · injection h with hpair
          injection hpair with hv hs
          exact ⟨closeIndex, hscan, hs.symm, hv.symm⟩
    · simp at h

/-- Witness for C8 at concrete inputs: the unknown escape `\q` is kept
as the two literal characters, and parsing the quoted literal in
` "ab"` succeeds with the span `(1,5,4)` covering the quotes. -/
theorem C8_quoted_string_escapes_and_span_witness :
    unescape ['\\', 'q'] = ['\\', 'q'] ∧
    parseQuoted " \"ab\"".toList 1 4 "apis" "api name must be quoted" =
      Except.ok (['a', 'b'], ⟨1, 5, 4⟩) ∧
    (∃ closeIndex,
      scanCloseAux (trimStartBytes " \"ab\"".toList).1.tail 1 false = some closeIndex ∧
      (⟨1, 5, 4⟩ : Span) = ⟨1, 4 + (trimStartBytes " \"ab\"".toList).2, closeIndex + 1⟩ ∧
      (['a', 'b'] : List Char) =
        unescape (takeBytes (trimStartBytes " \"ab\"".toList).1.tail (closeIndex - 1))) := by
  refine ⟨?_, rfl, ?_⟩
  · exact C8_quoted_string_escapes_and_span.2.2.2.2.1 'q' []
      (by decide) (by decide) (by decide) (by decide)
  · exact C8_quoted_string_escapes_and_span.2.2.2.2.2 " \"ab\"".toList 1 4
      "apis" "api name must be quoted" ['a', 'b'] ⟨1, 5, 4⟩ rfl
